import Mathlib

/-!
Verification of the real-time messaging and presence subsystem of the
tunfans backend (socketService.js, chatController.js, conversation_model.js).

The JavaScript source is shallowly embedded: MongoDB collections become
lists of records, Mongo query/update operators become list traversals with
MongoDB's array-field matching semantics (a condition on an array path
matches when SOME element satisfies it; the positional operator updates the
FIRST matching element; updateOne touches the first matching document,
updateMany all of them), socket.io emissions become an ordered list of
`Emission` values tagged with their target (a room, the originating socket
only, a room minus the originator, or every connection).
-/

namespace TunFans

/-- One entry of `conversationSchema.participants`:
`{user, userModel, lastSeen, unreadCount}` (conversation_model.js). -/
structure Participant where
  user : Nat
  userModel : String
  lastSeen : Nat
  unreadCount : Nat
  deriving Repr, DecidableEq

/-- A document of the Conversation collection (conversation_model.js):
participants array, `lastMessage` pointer, `lastActivity`, `isActive`. -/
structure Conversation where
  id : Nat
  participants : List Participant
  lastMessage : Option Nat
  lastActivity : Nat
  isActive : Bool
  deriving Repr, DecidableEq

/-- Modelled from the spec: `message_model.js` is not among the provided
source files; the Message schema is taken from spec section 3 — `sender`,
`receiver` with variant tags, `content`, `messageType` defaulting to
"text", `isRead` defaulting to false with optional `readAt`, soft-delete
flag `isDeleted`, and immutable `createdAt`. -/
structure Message where
  id : Nat
  sender : Nat
  senderModel : String
  receiver : Nat
  receiverModel : String
  content : String
  messageType : String
  isRead : Bool
  readAt : Option Nat
  isDeleted : Bool
  createdAt : Nat
  deriving Repr, DecidableEq

/-- The durable stores consumed by the gateway: the identity collections
(`User.findById` / `Admin.findById` succeed exactly on the listed ids) and
the Conversation and Message collections. -/
structure Store where
  users : List Nat
  admins : List Nat
  conversations : List Conversation
  messages : List Message
  deriving Repr, DecidableEq

/-- `this.findOne({$and: [{participants.user: u1, participants.userModel: m1}, ...]})`
matching semantics for one conversation document: each array-path condition
is satisfied when some participant entry satisfies it, independently of the
other conditions (MongoDB does not require a single entry to satisfy both
conditions of one clause unless $elemMatch is used, which the source does
not use). -/
def pairCond (c : Conversation) (uid : Nat) (model : String) : Bool :=
  (c.participants.any fun p => p.user == uid) &&
    (c.participants.any fun p => p.userModel == model)

/-- `conversationSchema.statics.findBetweenUsers` (conversation_model.js
lines 51-69): `findOne` over the collection with the $and of the two pair
conditions; `findOne` without a sort returns the first matching document in
collection order. -/
def findBetweenUsers (convs : List Conversation) (user1Id : Nat)
    (user1Model : String) (user2Id : Nat) (user2Model : String) :
    Option Conversation :=
  convs.find? fun c => pairCond c user1Id user1Model && pairCond c user2Id user2Model

/-- Where an outbound event is delivered: `io.to(room)` targets every
socket joined to the room; `socket.emit` targets the originating socket
only; `socket.to(room)` targets the room minus the originator; `io.emit`
targets every connection. -/
inductive Target where
  | room (name : String)
  | originSocket (sockId : Nat)
  | roomExceptOrigin (name : String) (sockId : Nat)
  | allConnections
  deriving Repr, DecidableEq

/-- Payloads of the outbound events the claims inspect. -/
inductive Payload where
  | msgPayload (messageId : Nat) (conversationId : Nat)
  | notifPayload (messageId : Nat) (conversationId : Nat) (sender : Nat)
  | readPayload (messageIds : List Nat) (readBy : Nat) (readAt : Nat)
  | typingPayload (userId : Nat) (conversationId : Nat)
  | statusPayload (userId : Nat) (status : String) (timestamp : Nat)
  | errorPayload (error : String)
  deriving Repr, DecidableEq

/-- One `emit` call: its target, event name and payload. The gateway's
emissions are collected as a list in program order. -/
structure Emission where
  target : Target
  event : String
  payload : Payload
  deriving Repr, DecidableEq

/-- The identity the auth middleware attaches to an admitted socket
(`socket.userId`, `socket.userRole`, plus the transport's socket id). -/
structure Sock where
  sockId : Nat
  userId : Nat
  userRole : String
  deriving Repr, DecidableEq

/-- The `data` argument of the send_message handler. `messageType` is an
optional field defaulted to "text" by the destructuring; `conversationId`
is accepted but never used by handleSendMessage. -/
structure SendData where
  receiverId : Nat
  receiverModel : String
  content : String
  messageType : Option String
  conversationId : Option Nat
  deriving Repr, DecidableEq

def conversationRoom (cid : Nat) : String := "conversation_" ++ toString cid

def userRoom (uid : Nat) : String := "user_" ++ toString uid

/-- `receiverParticipant.unreadCount += 1`: `participants.find` returns the
first entry whose `user` stringifies to the receiver id, and the mutation
happens in place on that entry; entries before it and all other entries
are untouched. When no entry matches, nothing changes. -/
def incrFirstUnread (ps : List Participant) (uid : Nat) : List Participant :=
  match ps with
  | [] => []
  | p :: rest =>
    if p.user == uid then { p with unreadCount := p.unreadCount + 1 } :: rest
    else p :: incrFirstUnread rest uid

/-- `conversation.save()` on an existing document: replace the document
with the matching `_id` (unique in MongoDB), leaving the rest alone. -/
def saveConv (convs : List Conversation) (c : Conversation) : List Conversation :=
  convs.map fun x => if x.id == c.id then c else x

/-- `senderModel = senderRole === "admin" ? "Admin" : "User"`. -/
def senderModelOf (sock : Sock) : String :=
  if sock.userRole == "admin" then "Admin" else "User"

/-- The `new Message({...})` document built by handleSendMessage: fields
from the payload and the authenticated socket; `isRead` and `readAt` take
their schema defaults (false / absent), `messageType` defaults to "text". -/
def newMessage (sock : Sock) (data : SendData) (now fmid : Nat) : Message :=
  { id := fmid
    sender := sock.userId
    senderModel := senderModelOf sock
    receiver := data.receiverId
    receiverModel := data.receiverModel
    content := data.content
    messageType := data.messageType.getD "text"
    isRead := false
    readAt := none
    isDeleted := false
    createdAt := now }

/-- The `new Conversation({participants: [...]})` document created when the
lookup misses: both entries take the schema default `unreadCount = 0`. -/
def freshConv (sock : Sock) (data : SendData) (now fcid : Nat) : Conversation :=
  { id := fcid
    participants :=
      [{ user := sock.userId, userModel := senderModelOf sock,
         lastSeen := now, unreadCount := 0 },
       { user := data.receiverId, userModel := data.receiverModel,
         lastSeen := now, unreadCount := 0 }]
    lastMessage := none
    lastActivity := now
    isActive := true }

/-- The conversation mutation of handleSendMessage: `lastMessage` points at
the new message, `lastActivity` is now, and the first participant entry
matching the receiver id is bumped. -/
def updatedConv (c : Conversation) (rid fmid now : Nat) : Conversation :=
  { c with
    lastMessage := some fmid
    lastActivity := now
    participants := incrFirstUnread c.participants rid }

/-- The three emissions of a successful send, in program order:
new_message to the conversation room, message_notification to the
receiver's personal room, message_sent to the origin socket. -/
def sendEmissions (sock : Sock) (data : SendData) (cid fmid : Nat) : List Emission :=
  [{ target := Target.room (conversationRoom cid),
     event := "new_message",
     payload := Payload.msgPayload fmid cid },
   { target := Target.room (userRoom data.receiverId),
     event := "message_notification",
     payload := Payload.notifPayload fmid cid sock.userId },
   { target := Target.originSocket sock.sockId,
     event := "message_sent",
     payload := Payload.msgPayload fmid cid }]

/-- `handleSendMessage` (socketService.js lines 134-223), translated step
by step: validate the receiver against the variant's identity collection,
look up or create the Conversation, persist the Message, set
`lastMessage` / `lastActivity` and bump the receiver's `unreadCount`,
save, then emit new_message to the conversation room, message_notification
to the receiver's personal room, and message_sent to the origin socket.
`now` stands for `new Date()`, `freshConvId` / `freshMsgId` for the ids
MongoDB assigns to newly inserted documents. Failure (`throw`) is the
`Except.error` branch. -/
def handleSendMessage (s : Store) (sock : Sock) (data : SendData)
    (now freshConvId freshMsgId : Nat) :
    Except String (Store × List Emission) :=
  let receiverPool := if data.receiverModel == "Admin" then s.admins else s.users
  if !(receiverPool.contains data.receiverId) then
    Except.error "Receiver not found"
  else
    let (conversation, convs1) :=
      match findBetweenUsers s.conversations sock.userId (senderModelOf sock)
        data.receiverId data.receiverModel with
      | some c => (c, s.conversations)
      | none =>
        (freshConv sock data now freshConvId,
         s.conversations ++ [freshConv sock data now freshConvId])
    let updated := updatedConv conversation data.receiverId freshMsgId now
    Except.ok
      ({ s with conversations := saveConv convs1 updated,
                messages := s.messages ++ [newMessage sock data now freshMsgId] },
       sendEmissions sock data conversation.id freshMsgId)

/-- The `socket.on("send_message", ...)` registration (socketService.js
lines 80-87): the handler is awaited inside try/catch; a thrown error is
converted into a message_error emission to the originating socket only,
and the socket stays connected (the Bool records that the handler never
closes the connection). -/
def onSendMessage (s : Store) (sock : Sock) (data : SendData)
    (now freshConvId freshMsgId : Nat) : Store × List Emission × Bool :=
  match handleSendMessage s sock data now freshConvId freshMsgId with
  | Except.ok (s2, ems) => (s2, ems, true)
  | Except.error e =>
    (s, [{ target := Target.originSocket sock.sockId,
           event := "message_error",
           payload := Payload.errorPayload e }], true)

/-- A two-user store with no history, for concrete evaluations. -/
def demoStore : Store :=
  { users := [1, 2], admins := [], conversations := [], messages := [] }

/-- A connection authenticated as user 1. -/
def demoSock : Sock := { sockId := 100, userId := 1, userRole := "user" }

/-- A send intent from the demo socket to user 2. -/
def demoSend : SendData :=
  { receiverId := 2, receiverModel := "User", content := "hi",
    messageType := none, conversationId := none }

/-- A send intent to the nonexistent user 3. -/
def demoSendMissing : SendData :=
  { receiverId := 3, receiverModel := "User", content := "hi",
    messageType := none, conversationId := none }

/-- `Message.updateMany({_id: {$in: messageIds}, receiver: userId, isRead: false},
{isRead: true, readAt: new Date()})`: every message document matching the
filter is updated, all others stay as they are. -/
def markMessagesReadMsgs (msgs : List Message) (messageIds : List Nat)
    (uid now : Nat) : List Message :=
  msgs.map fun m =>
    if messageIds.contains m.id && m.receiver == uid && m.isRead == false
    then { m with isRead := true, readAt := some now } else m

/-- The `$set: {"participants.$.unreadCount": 0}` positional update: the
FIRST array entry matching the query's `participants.user` condition has
its unreadCount set to 0; every other entry is untouched. -/
def resetFirstUnread (ps : List Participant) (uid : Nat) : List Participant :=
  match ps with
  | [] => []
  | p :: rest =>
    if p.user == uid then { p with unreadCount := 0 } :: rest
    else p :: resetFirstUnread rest uid

/-- `Conversation.updateOne({_id: conversationId, "participants.user": userId},
{$set: ...})`: the FIRST document matching both conditions receives the
positional reset; when no document matches, nothing changes. -/
def resetUnreadConvs (convs : List Conversation) (convId uid : Nat) :
    List Conversation :=
  match convs with
  | [] => []
  | c :: rest =>
    if c.id == convId && c.participants.any (fun p => p.user == uid)
    then { c with participants := resetFirstUnread c.participants uid } :: rest
    else c :: resetUnreadConvs rest convId uid

/-- `handleMarkMessagesRead` (socketService.js lines 225-259): update the
matching messages to read, reset the reader's unreadCount on the named
conversation, then emit messages_read to the conversation room carrying
the id set exactly as supplied in the event payload, the reader's id and
the timestamp. The function performs no participant check of its own and
has no failure path. -/
def handleMarkMessagesRead (s : Store) (sock : Sock) (conversationId : Nat)
    (messageIds : List Nat) (now : Nat) : Store × List Emission :=
  ({ s with
     messages := markMessagesReadMsgs s.messages messageIds sock.userId now,
     conversations := resetUnreadConvs s.conversations conversationId sock.userId },
   [{ target := Target.room (conversationRoom conversationId),
      event := "messages_read",
      payload := Payload.readPayload messageIds sock.userId now }])

/-- The `socket.on("mark_messages_read", ...)` registration (socketService.js
lines 110-116): the handler runs inside try/catch whose catch only logs to
the console — no error event is emitted and the connection stays open (the
Bool records that the handler never closes it). -/
def onMarkMessagesRead (s : Store) (sock : Sock) (conversationId : Nat)
    (messageIds : List Nat) (now : Nat) : Store × List Emission × Bool :=
  let r := handleMarkMessagesRead s sock conversationId messageIds now
  (r.1, r.2, true)

/-- Store for the mark-read counterexamples: conversation 10 is between
users 1 and 2 with user 1 holding 2 unread; conversation 20 is between
users 2 and 3 only; message 1 (to user 1) is already read, messages 2 and
3 (to user 1) are unread. -/
def readDemoStore : Store :=
  { users := [1, 2, 3]
    admins := []
    conversations :=
      [{ id := 10
         participants :=
           [{ user := 1, userModel := "User", lastSeen := 0, unreadCount := 2 },
            { user := 2, userModel := "User", lastSeen := 0, unreadCount := 0 }]
         lastMessage := some 3
         lastActivity := 4
         isActive := true },
       { id := 20
         participants :=
           [{ user := 2, userModel := "User", lastSeen := 0, unreadCount := 0 },
            { user := 3, userModel := "User", lastSeen := 0, unreadCount := 0 }]
         lastMessage := none
         lastActivity := 0
         isActive := true }]
    messages :=
      [{ id := 1, sender := 2, senderModel := "User", receiver := 1,
         receiverModel := "User", content := "a", messageType := "text",
         isRead := true, readAt := some 2, isDeleted := false, createdAt := 1 },
       { id := 2, sender := 2, senderModel := "User", receiver := 1,
         receiverModel := "User", content := "b", messageType := "text",
         isRead := false, readAt := none, isDeleted := false, createdAt := 3 },
       { id := 3, sender := 2, senderModel := "User", receiver := 1,
         receiverModel := "User", content := "c", messageType := "text",
         isRead := false, readAt := none, isDeleted := false, createdAt := 4 }] }

/-- The value stored in `userSockets`: `{userId, userRole, user}` (the
populated user document is irrelevant to presence and omitted). -/
structure UserInfo where
  userId : Nat
  userRole : String
  deriving Repr, DecidableEq

/-- JS `Map.set`: insert or overwrite the entry for the key. -/
def mset {β : Type} (m : List (Nat × β)) (k : Nat) (v : β) : List (Nat × β) :=
  (k, v) :: m.filter fun kv => !(kv.1 == k)

/-- JS `Map.delete`: drop the entry for the key (no-op when absent). -/
def mdel {β : Type} (m : List (Nat × β)) (k : Nat) : List (Nat × β) :=
  m.filter fun kv => !(kv.1 == k)

/-- JS `Map.has`. -/
def mhas {β : Type} (m : List (Nat × β)) (k : Nat) : Bool :=
  m.any fun kv => kv.1 == k

/-- The gateway's process-local state: `connectedUsers` (participantId →
connectionId), `userSockets` (connectionId → participant info), and the
transport's room memberships (connectionId, room name). -/
structure Gateway where
  connectedUsers : List (Nat × Nat)
  userSockets : List (Nat × UserInfo)
  rooms : List (Nat × String)
  deriving Repr, DecidableEq

def emptyGateway : Gateway :=
  { connectedUsers := [], userSockets := [], rooms := [] }

/-- `broadcastUserStatus` (socketService.js lines 261-267): `io.emit` of a
user_status_change to every connection. -/
def broadcastUserStatus (uid : Nat) (status : String) (now : Nat) : Emission :=
  { target := Target.allConnections, event := "user_status_change",
    payload := Payload.statusPayload uid status now }

/-- The `connection` handler prologue (socketService.js lines 46-58):
store both presence mappings (last connection wins on `connectedUsers`),
join the personal room, broadcast online status. -/
def onConnection (g : Gateway) (sock : Sock) (now : Nat) : Gateway × List Emission :=
  ({ connectedUsers := mset g.connectedUsers sock.userId sock.sockId,
     userSockets := mset g.userSockets sock.sockId
       { userId := sock.userId, userRole := sock.userRole },
     rooms := (sock.sockId, userRoom sock.userId) :: g.rooms },
   [broadcastUserStatus sock.userId "online" now])

/-- The `disconnect` handler (socketService.js lines 119-130): delete the
participantId → connectionId entry unconditionally, delete this
connection's userSockets entry, broadcast offline status. Room membership
is dropped by the transport, not by this handler. -/
def onDisconnect (g : Gateway) (sock : Sock) (now : Nat) : Gateway × List Emission :=
  ({ g with
     connectedUsers := mdel g.connectedUsers sock.userId,
     userSockets := mdel g.userSockets sock.sockId },
   [broadcastUserStatus sock.userId "offline" now])

/-- `isUserOnline` (socketService.js lines 284-286). -/
def isUserOnline (g : Gateway) (uid : Nat) : Bool :=
  mhas g.connectedUsers uid

/-- `join_conversation` handler: `socket.join` on the conversation room. -/
def onJoinConversation (g : Gateway) (sock : Sock) (cid : Nat) : Gateway :=
  { g with rooms := (sock.sockId, conversationRoom cid) :: g.rooms }

/-- `leave_conversation` handler: `socket.leave`. -/
def onLeaveConversation (g : Gateway) (sock : Sock) (cid : Nat) : Gateway :=
  let rooms2 := g.rooms.filter fun r => !(r == (sock.sockId, conversationRoom cid))
  { g with rooms := rooms2 }

/-- `typing_start` handler (socketService.js lines 90-97):
`socket.to(room).emit` — the conversation room minus the originator. -/
def onTypingStart (sock : Sock) (conversationId : Nat) : List Emission :=
  [{ target := Target.roomExceptOrigin (conversationRoom conversationId) sock.sockId,
     event := "user_typing",
     payload := Payload.typingPayload sock.userId conversationId }]

/-- `typing_stop` handler (socketService.js lines 99-107). -/
def onTypingStop (sock : Sock) (conversationId : Nat) : List Emission :=
  [{ target := Target.roomExceptOrigin (conversationRoom conversationId) sock.sockId,
     event := "user_stopped_typing",
     payload := Payload.typingPayload sock.userId conversationId }]

/-- socket.io delivery: whether the emission target delivers to a given
connection. `socket.to(room)` never includes the originator. -/
def deliversTo (g : Gateway) (t : Target) (sid : Nat) : Bool :=
  match t with
  | Target.room name => g.rooms.contains (sid, name)
  | Target.originSocket o => sid == o
  | Target.roomExceptOrigin name o => g.rooms.contains (sid, name) && !(sid == o)
  | Target.allConnections => true

/-- The payload `jwt.verify` either rejects (invalid) or decodes to an id
and role claim set. -/
structure TokenData where
  valid : Bool
  id : Nat
  role : String
  deriving Repr, DecidableEq

/-- The `io.use` auth middleware (socketService.js lines 16-44): reject on
missing token, on failed verification, and on unknown user for the role's
collection; otherwise resolve to (id, role). -/
def authUser (s : Store) (token : Option TokenData) : Option (Nat × String) :=
  match token with
  | none => none
  | some t =>
    if !t.valid then none
    else
      let pool := if t.role == "admin" then s.admins else s.users
      if pool.contains t.id then some (t.id, t.role) else none

/-- The inbound events a connection can emit once admitted. -/
inductive InEvent where
  | joinConversation (cid : Nat)
  | leaveConversation (cid : Nat)
  | sendMessage (d : SendData)
  | typingStart (cid : Nat)
  | typingStop (cid : Nat)
  | markRead (cid : Nat) (ids : List Nat)
  | disconnect
  deriving Repr, DecidableEq

/-- Dispatch of one inbound event to its registered handler; `k` feeds the
fresh document ids for sends. -/
def processEvent (g : Gateway) (s : Store) (sock : Sock) (ev : InEvent)
    (now k : Nat) : Gateway × Store × List Emission :=
  match ev with
  | InEvent.joinConversation cid => (onJoinConversation g sock cid, s, [])
  | InEvent.leaveConversation cid => (onLeaveConversation g sock cid, s, [])
  | InEvent.sendMessage d =>
    let r := onSendMessage s sock d now (2 * k) (2 * k + 1)
    (g, r.1, r.2.1)
  | InEvent.typingStart cid => (g, s, onTypingStart sock cid)
  | InEvent.typingStop cid => (g, s, onTypingStop sock cid)
  | InEvent.markRead cid ids =>
    let r := onMarkMessagesRead s sock cid ids now
    (g, r.1, r.2.1)
  | InEvent.disconnect =>
    let r := onDisconnect g sock now
    (r.1, s, r.2)

def processEvents (g : Gateway) (s : Store) (sock : Sock) (evs : List InEvent)
    (now k : Nat) : Gateway × Store × List Emission :=
  match evs with
  | [] => (g, s, [])
  | ev :: rest =>
    let r := processEvent g s sock ev now k
    let r2 := processEvents r.1 r.2.1 sock rest now (k + 1)
    (r2.1, r2.2.1, r.2.2 ++ r2.2.2)

/-- A connection's lifecycle: the auth middleware runs first; only when it
resolves an identity does the connection handler run (registering presence,
joining the personal room, broadcasting online) and only then are the
per-connection event handlers installed and the inbound events processed.
A refused connection changes nothing and processes no event. -/
def runConnection (g : Gateway) (s : Store) (token : Option TokenData)
    (sockId : Nat) (events : List InEvent) (now k : Nat) :
    Gateway × Store × List Emission :=
  match authUser s token with
  | none => (g, s, [])
  | some (uid, role) =>
    let sock : Sock := { sockId := sockId, userId := uid, userRole := role }
    let r0 := onConnection g sock now
    let r := processEvents r0.1 s sock events now k
    (r.1, r.2.1, r0.2 ++ r.2.2)

/-- Insertion of a message into a list sorted by createdAt descending. -/
def insertByCreatedDesc (m : Message) : List Message → List Message
  | [] => [m]
  | x :: xs =>
    if x.createdAt ≤ m.createdAt then m :: x :: xs
    else x :: insertByCreatedDesc m xs

/-- `.sort({createdAt: -1})`. -/
def sortByCreatedDesc (msgs : List Message) : List Message :=
  msgs.foldr insertByCreatedDesc []

/-- `getMessages` (chatController.js lines 97-172): membership check via
findOne on (id, participants.user, participants.userModel); page the
messages exchanged with the conversation's participants (excluding soft
deletes), then — independent of the page — mark every unread message
addressed to the requester from a participant as read and reset the
requester's unreadCount with the same positional updateOne as the socket
path; 404 when the requester is not a participant. -/
def getMessages (s : Store) (uid : Nat) (userModel : String)
    (conversationId : Nat) (page limit now : Nat) :
    Except (Nat × String) (Store × List Message) :=
  match s.conversations.find? (fun c => c.id == conversationId &&
      (c.participants.any fun p => p.user == uid) &&
      (c.participants.any fun p => p.userModel == userModel)) with
  | none => Except.error (404, "Conversation not found")
  | some conversation =>
    let pids := conversation.participants.map fun p => p.user
    let selected := s.messages.filter fun m =>
      ((m.sender == uid && pids.contains m.receiver) ||
       (m.receiver == uid && pids.contains m.sender)) && m.isDeleted == false
    let pageMsgs :=
      (((sortByCreatedDesc selected).drop ((page - 1) * limit)).take
        (limit * page)).reverse
    let msgs2 := s.messages.map fun m =>
      if m.receiver == uid && pids.contains m.sender && m.isRead == false
      then { m with isRead := true, readAt := some now } else m
    let convs2 := resetUnreadConvs s.conversations conversationId uid
    Except.ok ({ s with messages := msgs2, conversations := convs2 }, pageMsgs)

/-- A credential that fails `jwt.verify`. -/
def demoBadToken : TokenData := { valid := false, id := 1, role := "user" }

/-- The single emission of a typing_start from the demo socket into
conversation 10. -/
def demoTypingEmission : Emission :=
  { target := Target.roomExceptOrigin (conversationRoom 10) demoSock.sockId,
    event := "user_typing",
    payload := Payload.typingPayload demoSock.userId 10 }

/-- The gateway state after the same participant connects twice (two
transports, second registration overwriting the first in
`connectedUsers`). -/
def doubleConnect (g : Gateway) (u sid1 sid2 : Nat) (role1 role2 : String)
    (t1 t2 : Nat) : Gateway :=
  (onConnection (onConnection g ⟨sid1, u, role1⟩ t1).1 ⟨sid2, u, role2⟩ t2).1

/-- Bumping the first matching participant entry leaves a list with no
matching entry unchanged. -/
theorem map_bump_eq_self (uid : Nat) (ps : List Participant)
    (h : ∀ p ∈ ps, ¬ p.user = uid) :
    (ps.map fun p =>
      if p.user == uid then { p with unreadCount := p.unreadCount + 1 } else p) = ps := by
  induction ps with
  | nil => rfl
  | cons p rest ih =>
    have hp : ¬ p.user = uid := h p (List.mem_cons_self p rest)
    have hb : (p.user == uid) = false := by simp [hp]
    simp only [List.map_cons, hb, Bool.false_eq_true, if_false]
    rw [ih fun q hq => h q (List.mem_cons_of_mem p hq)]

/-- When participant user ids are pairwise distinct, bumping the first
entry matching `uid` is the same as bumping every entry matching `uid`:
at most one entry matches, so the in-place `find`-then-increment touches
exactly the entries with `user = uid` and no other. -/
theorem incrFirstUnread_eq_map (uid : Nat) (ps : List Participant)
    (h : (ps.map Participant.user).Nodup) :
    incrFirstUnread ps uid =
      ps.map fun p =>
        if p.user == uid then { p with unreadCount := p.unreadCount + 1 } else p := by
  induction ps with
  | nil => rfl
  | cons p rest ih =>
    simp only [List.map_cons, List.nodup_cons, List.mem_map] at h
    by_cases hp : p.user = uid
    · have hb : (p.user == uid) = true := by simp [hp]
      simp only [incrFirstUnread, hb, List.map_cons, if_true]
      rw [map_bump_eq_self uid rest]
      intro q hq hquid
      exact h.1 ⟨q, hq, by rw [hquid, hp]⟩
    · have hb : (p.user == uid) = false := by simp [hp]
      simp only [incrFirstUnread, hb, List.map_cons, Bool.false_eq_true, if_false]
      rw [ih h.2]

/-- Resetting the first matching participant entry leaves a list with no
matching entry unchanged. -/
theorem map_reset_eq_self (uid : Nat) (ps : List Participant)
    (h : ∀ p ∈ ps, ¬ p.user = uid) :
    (ps.map fun p =>
      if p.user == uid then { p with unreadCount := 0 } else p) = ps := by
  induction ps with
  | nil => rfl
  | cons p rest ih =>
    have hp : ¬ p.user = uid := h p (List.mem_cons_self p rest)
    have hb : (p.user == uid) = false := by simp [hp]
    simp only [List.map_cons, hb, Bool.false_eq_true, if_false]
    rw [ih fun q hq => h q (List.mem_cons_of_mem p hq)]

/-- When participant user ids are pairwise distinct, the positional reset
(first match) coincides with resetting every entry matching `uid`: at most
one entry matches, so exactly the reader's entry goes to 0 and no other
entry changes. -/
theorem resetFirstUnread_eq_map (uid : Nat) (ps : List Participant)
    (h : (ps.map Participant.user).Nodup) :
    resetFirstUnread ps uid =
      ps.map fun p =>
        if p.user == uid then { p with unreadCount := 0 } else p := by
  induction ps with
  | nil => rfl
  | cons p rest ih =>
    simp only [List.map_cons, List.nodup_cons, List.mem_map] at h
    by_cases hp : p.user = uid
    · have hb : (p.user == uid) = true := by simp [hp]
      simp only [resetFirstUnread, hb, List.map_cons, if_true]
      rw [map_reset_eq_self uid rest]
      intro q hq hquid
      exact h.1 ⟨q, hq, by rw [hquid, hp]⟩
    · have hb : (p.user == uid) = false := by simp [hp]
      simp only [resetFirstUnread, hb, List.map_cons, Bool.false_eq_true, if_false]
      rw [ih h.2]

/-- Conversations whose id differs from the updated one survive the
updateOne untouched. -/
theorem mem_resetUnreadConvs_of_ne (convs : List Conversation) (convId uid : Nat)
    (d : Conversation) (hd : d ∈ convs) (hne : ¬ d.id = convId) :
    d ∈ resetUnreadConvs convs convId uid := by
  induction convs with
  | nil => cases hd
  | cons c rest ih =>
    unfold resetUnreadConvs
    by_cases hg : (c.id == convId && c.participants.any fun p => p.user == uid) = true
    · simp only [hg, if_true]
      cases List.mem_cons.mp hd with
      | inl h =>
        exfalso
        have : c.id = convId := by
          have h2 := (Bool.and_eq_true _ _).mp hg
          exact beq_iff_eq.mp h2.1
        rw [h] at hne
        exact hne this
      | inr h => exact List.mem_cons_of_mem _ h
    · have hg2 : (c.id == convId && c.participants.any fun p => p.user == uid) = false :=
        Bool.eq_false_iff.mpr hg
      simp only [hg2, Bool.false_eq_true, if_false]
      cases List.mem_cons.mp hd with
      | inl h => rw [h]; exact List.mem_cons_self _ _
      | inr h => exact List.mem_cons_of_mem _ (ih h)

/-- When conversation ids are unique, the updateOne hits exactly the named
conversation: its positionally-reset version is in the updated collection. -/
theorem mem_resetUnreadConvs_self (convs : List Conversation) (convId uid : Nat)
    (c : Conversation) (hids : (convs.map Conversation.id).Nodup)
    (hc : c ∈ convs) (hcid : c.id = convId)
    (hpart : (c.participants.any fun p => p.user == uid) = true) :
    { c with participants := resetFirstUnread c.participants uid } ∈
      resetUnreadConvs convs convId uid := by
  induction convs with
  | nil => cases hc
  | cons c2 rest ih =>
    simp only [List.map_cons, List.nodup_cons, List.mem_map] at hids
    unfold resetUnreadConvs
    cases List.mem_cons.mp hc with
    | inl h =>
      have hg : (c2.id == convId && c2.participants.any fun p => p.user == uid) = true := by
        rw [← h]
        simp [hcid, hpart]
      simp only [hg, if_true]
      rw [← h]
      exact List.mem_cons_self _ _
    | inr h =>
      have hne : ¬ c2.id = convId := by
        intro he
        exact hids.1 ⟨c, h, by rw [hcid, he]⟩
      have hg : (c2.id == convId && c2.participants.any fun p => p.user == uid) = false := by
        have : (c2.id == convId) = false := by simp [hne]
        simp [this]
      simp only [hg, Bool.false_eq_true, if_false]
      exact List.mem_cons_of_mem _ (ih hids.2 h)

/-- When no stored conversation carries the given id with the reader among
its participants, the updateOne filter matches nothing and the collection
is unchanged. -/
theorem resetUnreadConvs_eq_self (convs : List Conversation) (convId uid : Nat)
    (h : ∀ c ∈ convs, c.id = convId → ∀ p ∈ c.participants, ¬ p.user = uid) :
    resetUnreadConvs convs convId uid = convs := by
  induction convs with
  | nil => rfl
  | cons c rest ih =>
    unfold resetUnreadConvs
    have hg : (c.id == convId && c.participants.any fun p => p.user == uid) = false := by
      by_cases hcid : c.id = convId
      · have hnone : (c.participants.any fun p => p.user == uid) = false := by
          rw [List.any_eq_false]
          intro p hp
          simp [h c (List.mem_cons_self c rest) hcid p hp]
        simp [hnone]
      · have : (c.id == convId) = false := by simp [hcid]
        simp [this]
    simp only [hg, Bool.false_eq_true, if_false]
    rw [ih fun d hd => h d (List.mem_cons_of_mem c hd)]

/-- Documents whose id differs from the saved document's id survive
`saveConv` unchanged. -/
theorem mem_saveConv_of_ne (convs : List Conversation) (c d : Conversation)
    (hd : d ∈ convs) (hne : ¬ d.id = c.id) : d ∈ saveConv convs c := by
  unfold saveConv
  exact List.mem_map.mpr ⟨d, hd, by simp [hne]⟩

/-- The saved document is in the saved collection as soon as some document
carried its id. -/
theorem mem_saveConv_self (convs : List Conversation) (c d : Conversation)
    (hd : d ∈ convs) (hid : d.id = c.id) : c ∈ saveConv convs c := by
  unfold saveConv
  exact List.mem_map.mpr ⟨d, hd, by simp [hid]⟩

theorem saveConv_length (convs : List Conversation) (c : Conversation) :
    (saveConv convs c).length = convs.length := by
  unfold saveConv
  exact List.length_map convs _

/-- C6: the conversation lookup is symmetric: `findBetweenUsers(A, MA, B, MB)`
returns the same record as `findBetweenUsers(B, MB, A, MA)`, for every
store state and every pair of (participant, variant) tuples. -/
theorem findBetweenUsers_symm (convs : List Conversation) (u1 : Nat)
    (m1 : String) (u2 : Nat) (m2 : String) :
    findBetweenUsers convs u1 m1 u2 m2 = findBetweenUsers convs u2 m2 u1 m1 := by
  unfold findBetweenUsers
  induction convs with
  | nil => rfl
  | cons c rest ih =>
    simp only [List.find?]
    rw [Bool.and_comm]
    cases pairCond c u2 m2 && pairCond c u1 m1 with
    | true => rfl
    | false => exact ih

/-- Normal form of handleSendMessage when the receiver exists and the
conversation lookup hits. -/
theorem handleSendMessage_found (s : Store) (sock : Sock) (data : SendData)
    (now fcid fmid : Nat) (c0 : Conversation)
    (hrecv : ((if data.receiverModel == "Admin" then s.admins else s.users).contains
        data.receiverId) = true)
    (hfind : findBetweenUsers s.conversations sock.userId (senderModelOf sock)
        data.receiverId data.receiverModel = some c0) :
    handleSendMessage s sock data now fcid fmid = Except.ok
      ({ s with
         conversations := saveConv s.conversations (updatedConv c0 data.receiverId fmid now),
         messages := s.messages ++ [newMessage sock data now fmid] },
       sendEmissions sock data c0.id fmid) := by
  unfold handleSendMessage
  simp only [hrecv, hfind, Bool.not_true, Bool.false_eq_true, if_false]

/-- Normal form of handleSendMessage when the receiver exists and the
conversation lookup misses: a fresh conversation is inserted and then
updated in place. -/
theorem handleSendMessage_notFound (s : Store) (sock : Sock) (data : SendData)
    (now fcid fmid : Nat)
    (hrecv : ((if data.receiverModel == "Admin" then s.admins else s.users).contains
        data.receiverId) = true)
    (hfind : findBetweenUsers s.conversations sock.userId (senderModelOf sock)
        data.receiverId data.receiverModel = none) :
    handleSendMessage s sock data now fcid fmid = Except.ok
      ({ s with
         conversations := saveConv (s.conversations ++ [freshConv sock data now fcid])
           (updatedConv (freshConv sock data now fcid) data.receiverId fmid now),
         messages := s.messages ++ [newMessage sock data now fmid] },
       sendEmissions sock data (freshConv sock data now fcid).id fmid) := by
  unfold handleSendMessage
  simp only [hrecv, hfind, Bool.not_true, Bool.false_eq_true, if_false]

/-- C1: for every authenticated send_message whose receiver exists, whose
sender and receiver ids are distinct, and whose store holds conversations
with pairwise-distinct participant ids, the send sequence executes
in order: a Conversation between the two pairs is looked up (or created
seeded with unreadCount 0), a Message is persisted with isRead = false,
the Conversation's lastMessage is set to the new message and lastActivity
to now, exactly the receiver's unreadCount is incremented by 1 while the
sender's entry is unchanged, and the three events new_message (conversation
group), message_notification (receiver's personal group) and message_sent
(origin connection only) are emitted in this order. -/
theorem sendMessage_sequence (s : Store) (sock : Sock) (data : SendData)
    (now fcid fmid : Nat)
    (hne : ¬ sock.userId = data.receiverId)
    (hrecv : ((if data.receiverModel == "Admin" then s.admins else s.users).contains
        data.receiverId) = true)
    (husers : ∀ c ∈ s.conversations, (c.participants.map Participant.user).Nodup) :
    ∃ c0 msg s2,
      handleSendMessage s sock data now fcid fmid =
        Except.ok (s2, sendEmissions sock data c0.id msg.id) ∧
      msg.isRead = false ∧ msg.sender = sock.userId ∧
      msg.receiver = data.receiverId ∧ msg.readAt = none ∧
      s2.messages = s.messages ++ [msg] ∧
      ((findBetweenUsers s.conversations sock.userId (senderModelOf sock)
          data.receiverId data.receiverModel = some c0 ∧
        s2.conversations.length = s.conversations.length) ∨
       (findBetweenUsers s.conversations sock.userId (senderModelOf sock)
          data.receiverId data.receiverModel = none ∧
        (∀ p ∈ c0.participants, p.unreadCount = 0) ∧
        s2.conversations.length = s.conversations.length + 1)) ∧
      ∃ c1,
        c1.id = c0.id ∧
        c1.lastMessage = some msg.id ∧
        c1.lastActivity = now ∧
        c1.participants = c0.participants.map (fun p =>
          if p.user == data.receiverId
          then { p with unreadCount := p.unreadCount + 1 } else p) ∧
        c1 ∈ s2.conversations ∧
        (∀ d ∈ s.conversations, ¬ d.id = c0.id → d ∈ s2.conversations) := by
  cases hfind : findBetweenUsers s.conversations sock.userId (senderModelOf sock)
      data.receiverId data.receiverModel with
  | some c0 =>
    have hc0 : c0 ∈ s.conversations := List.mem_of_find?_eq_some hfind
    refine ⟨c0, newMessage sock data now fmid, _,
      handleSendMessage_found s sock data now fcid fmid c0 hrecv hfind,
      rfl, rfl, rfl, rfl, rfl, ?_, ?_⟩
    · exact Or.inl ⟨rfl, saveConv_length _ _⟩
    · refine ⟨updatedConv c0 data.receiverId fmid now, rfl, rfl, rfl, ?_, ?_, ?_⟩
      · exact incrFirstUnread_eq_map data.receiverId c0.participants (husers c0 hc0)
      · exact mem_saveConv_self _ _ c0 hc0 rfl
      · intro d hd hdne
        exact mem_saveConv_of_ne _ _ d hd hdne
  | none =>
    refine ⟨freshConv sock data now fcid, newMessage sock data now fmid, _,
      handleSendMessage_notFound s sock data now fcid fmid hrecv hfind,
      rfl, rfl, rfl, rfl, rfl, ?_, ?_⟩
    · refine Or.inr ⟨rfl, ?_, ?_⟩
      · intro p hp
        simp only [freshConv, List.mem_cons, List.not_mem_nil, or_false] at hp
        cases hp with
        | inl h => rw [h]
        | inr h => rw [h]
      · rw [saveConv_length, List.length_append]
        rfl
    · refine ⟨updatedConv (freshConv sock data now fcid) data.receiverId fmid now,
        rfl, rfl, rfl, ?_, ?_, ?_⟩
      · exact incrFirstUnread_eq_map data.receiverId _ (by simp [freshConv, hne])
      · refine mem_saveConv_self _ _ (freshConv sock data now fcid)
          (List.mem_append_right _ (List.mem_cons_self _ _)) rfl
      · intro d hd hdne
        refine mem_saveConv_of_ne _ _ d (List.mem_append_left _ hd) hdne

/-- Witness for C1: the send sequence evaluated on the demo scenario
(user 1 sends "hi" to user 2 over an empty history). -/
theorem sendMessage_sequence_witness :
    (¬ demoSock.userId = demoSend.receiverId) ∧
    (((if demoSend.receiverModel == "Admin" then demoStore.admins
        else demoStore.users).contains demoSend.receiverId) = true) ∧
    (∀ c ∈ demoStore.conversations, (c.participants.map Participant.user).Nodup) ∧
    (∃ c0 msg s2,
      handleSendMessage demoStore demoSock demoSend 5 10 20 =
        Except.ok (s2, sendEmissions demoSock demoSend c0.id msg.id) ∧
      msg.isRead = false ∧ msg.sender = demoSock.userId ∧
      msg.receiver = demoSend.receiverId ∧ msg.readAt = none ∧
      s2.messages = demoStore.messages ++ [msg] ∧
      ((findBetweenUsers demoStore.conversations demoSock.userId (senderModelOf demoSock)
          demoSend.receiverId demoSend.receiverModel = some c0 ∧
        s2.conversations.length = demoStore.conversations.length) ∨
       (findBetweenUsers demoStore.conversations demoSock.userId (senderModelOf demoSock)
          demoSend.receiverId demoSend.receiverModel = none ∧
        (∀ p ∈ c0.participants, p.unreadCount = 0) ∧
        s2.conversations.length = demoStore.conversations.length + 1)) ∧
      ∃ c1,
        c1.id = c0.id ∧
        c1.lastMessage = some msg.id ∧
        c1.lastActivity = 5 ∧
        c1.participants = c0.participants.map (fun p =>
          if p.user == demoSend.receiverId
          then { p with unreadCount := p.unreadCount + 1 } else p) ∧
        c1 ∈ s2.conversations ∧
        (∀ d ∈ demoStore.conversations, ¬ d.id = c0.id → d ∈ s2.conversations)) :=
  ⟨by decide, by decide, by decide,
    sendMessage_sequence demoStore demoSock demoSend 5 10 20
      (by decide) (by decide) (by decide)⟩

/-- C2: for every send_message whose receiver does not exist, the handler
fails with the receiver-not-found error before any persistence: the store
is returned exactly as it was (no Message, no Conversation created or
mutated), the only emission is a message_error to the originating socket,
and the connection remains open. -/
theorem sendMessage_receiverNotFound (s : Store) (sock : Sock) (data : SendData)
    (now fcid fmid : Nat)
    (habs : ((if data.receiverModel == "Admin" then s.admins else s.users).contains
        data.receiverId) = false) :
    handleSendMessage s sock data now fcid fmid = Except.error "Receiver not found" ∧
    onSendMessage s sock data now fcid fmid =
      (s, [{ target := Target.originSocket sock.sockId, event := "message_error",
             payload := Payload.errorPayload "Receiver not found" }], true) := by
  have h1 : handleSendMessage s sock data now fcid fmid =
      Except.error "Receiver not found" := by
    unfold handleSendMessage
    simp only [habs, Bool.not_false, if_true]
  refine ⟨h1, ?_⟩
  unfold onSendMessage
  rw [h1]

/-- Witness for C2: sending to nonexistent user 3 from the demo store. -/
theorem sendMessage_receiverNotFound_witness :
    (((if demoSendMissing.receiverModel == "Admin" then demoStore.admins
        else demoStore.users).contains demoSendMissing.receiverId) = false) ∧
    (handleSendMessage demoStore demoSock demoSendMissing 5 10 20 =
      Except.error "Receiver not found" ∧
    onSendMessage demoStore demoSock demoSendMissing 5 10 20 =
      (demoStore,
       [{ target := Target.originSocket demoSock.sockId, event := "message_error",
          payload := Payload.errorPayload "Receiver not found" }], true)) :=
  ⟨by decide,
    sendMessage_receiverNotFound demoStore demoSock demoSendMissing 5 10 20 (by decide)⟩

/-- C3: for every mark_messages_read call by a reader who is a participant
of the named conversation (ids unique, participant ids distinct), exactly
the messages in the id set addressed to the reader and still unread
transition to isRead = true with readAt set; every other message is
unchanged; and the reader's unreadCount on the conversation is set to
exactly 0 — a coarse reset performed by the positional update regardless
of how many messages transitioned — while every other participant entry
and every other conversation is untouched. -/
theorem markMessagesRead_effects (s : Store) (sock : Sock) (convId : Nat)
    (ids : List Nat) (now : Nat) (c : Conversation)
    (hids : (s.conversations.map Conversation.id).Nodup)
    (hc : c ∈ s.conversations) (hcid : c.id = convId)
    (husers : (c.participants.map Participant.user).Nodup)
    (hmem : ∃ p ∈ c.participants, p.user = sock.userId) :
    ∃ s2,
      handleMarkMessagesRead s sock convId ids now =
        (s2, [{ target := Target.room (conversationRoom convId),
                event := "messages_read",
                payload := Payload.readPayload ids sock.userId now }]) ∧
      s2.messages.length = s.messages.length ∧
      (∀ (i : Nat) (m m2 : Message), s.messages[i]? = some m → s2.messages[i]? = some m2 →
        ((m.id ∈ ids ∧ m.receiver = sock.userId ∧ m.isRead = false) →
          m2 = { m with isRead := true, readAt := some now }) ∧
        (¬(m.id ∈ ids ∧ m.receiver = sock.userId ∧ m.isRead = false) → m2 = m)) ∧
      ({ c with participants := c.participants.map (fun p =>
          if p.user == sock.userId then { p with unreadCount := 0 } else p) }
        ∈ s2.conversations) ∧
      (∀ d ∈ s.conversations, ¬ d.id = convId → d ∈ s2.conversations) := by
  refine ⟨_, rfl, ?_, ?_, ?_, ?_⟩
  · exact List.length_map _ _
  · intro i m m2 hm hm2
    have hmap : (markMessagesReadMsgs s.messages ids sock.userId now)[i]? =
        Option.map (fun m =>
          if ids.contains m.id && m.receiver == sock.userId && m.isRead == false
          then { m with isRead := true, readAt := some now } else m) s.messages[i]? :=
      List.getElem?_map _ _ _
    rw [hm] at hmap
    have hm2f : m2 = (if ids.contains m.id && m.receiver == sock.userId &&
        m.isRead == false
        then { m with isRead := true, readAt := some now } else m) := by
      have := hm2.symm.trans hmap
      exact (Option.some.injEq _ _).mp this
    constructor
    · intro hcond
      have hguard : (ids.contains m.id && m.receiver == sock.userId &&
          m.isRead == false) = true := by
        simp only [Bool.and_eq_true, beq_iff_eq]
        refine ⟨⟨?_, hcond.2.1⟩, hcond.2.2⟩
        exact List.elem_eq_true_of_mem hcond.1
      rw [hm2f, hguard]
      rfl
    · intro hcond
      have hguard : (ids.contains m.id && m.receiver == sock.userId &&
          m.isRead == false) = false := by
        rw [Bool.eq_false_iff]
        intro habs
        apply hcond
        have h2 := (Bool.and_eq_true _ _).mp habs
        have h3 := (Bool.and_eq_true _ _).mp h2.1
        refine ⟨?_, beq_iff_eq.mp h3.2, ?_⟩
        · have := List.contains_iff_exists_mem_beq.mp h3.1
          obtain ⟨a, ha, hbeq⟩ := this
          rw [beq_iff_eq.mp hbeq]
          exact ha
        · exact beq_iff_eq.mp h2.2
      rw [hm2f, hguard]
      simp
  · have hpart : (c.participants.any fun p => p.user == sock.userId) = true := by
      rw [List.any_eq_true]
      obtain ⟨p, hp, hpu⟩ := hmem
      exact ⟨p, hp, by simp [hpu]⟩
    have hres := mem_resetUnreadConvs_self s.conversations convId sock.userId c
      hids hc hcid hpart
    rw [resetFirstUnread_eq_map sock.userId c.participants husers] at hres
    exact hres
  · intro d hd hdne
    exact mem_resetUnreadConvs_of_ne s.conversations convId sock.userId d hd hdne

/-- Witness for C3: user 1 marks only message 2 of conversation 10 read in
the demo read store; message 3 stays unread, message 1 stays as it was,
and user 1's unreadCount drops from 2 to 0. -/
theorem markMessagesRead_effects_witness :
    ((readDemoStore.conversations.map Conversation.id).Nodup) ∧
    ((readDemoStore.conversations.get ⟨0, by decide⟩) ∈ readDemoStore.conversations) ∧
    ((readDemoStore.conversations.get ⟨0, by decide⟩).id = 10) ∧
    (((readDemoStore.conversations.get ⟨0, by decide⟩).participants.map
        Participant.user).Nodup) ∧
    (∃ p ∈ (readDemoStore.conversations.get ⟨0, by decide⟩).participants,
      p.user = demoSock.userId) ∧
    (∃ s2,
      handleMarkMessagesRead readDemoStore demoSock 10 [2] 5 =
        (s2, [{ target := Target.room (conversationRoom 10),
                event := "messages_read",
                payload := Payload.readPayload [2] demoSock.userId 5 }]) ∧
      s2.messages.length = readDemoStore.messages.length ∧
      (∀ (i : Nat) (m m2 : Message), readDemoStore.messages[i]? = some m → s2.messages[i]? = some m2 →
        ((m.id ∈ [2] ∧ m.receiver = demoSock.userId ∧ m.isRead = false) →
          m2 = { m with isRead := true, readAt := some 5 }) ∧
        (¬(m.id ∈ [2] ∧ m.receiver = demoSock.userId ∧ m.isRead = false) → m2 = m)) ∧
      ({ readDemoStore.conversations.get ⟨0, by decide⟩ with
          participants := (readDemoStore.conversations.get
            ⟨0, by decide⟩).participants.map (fun p =>
              if p.user == demoSock.userId then { p with unreadCount := 0 } else p) }
        ∈ s2.conversations) ∧
      (∀ d ∈ readDemoStore.conversations, ¬ d.id = 10 → d ∈ s2.conversations)) :=
  ⟨by decide, by decide, by decide, by decide, by decide,
    markMessagesRead_effects readDemoStore demoSock 10 [2] 5
      (readDemoStore.conversations.get ⟨0, by decide⟩)
      (by decide) (by decide) (by decide) (by decide) (by decide)⟩

/-- C5 counterexample: user 1 calls mark_messages_read on conversation 10
naming only message 1, which is already read. No message transitions (the
message collection is unchanged), yet the messages_read broadcast carries
id 1 — the requested set, not the actually-transitioned set, which is
empty and differs from [1]. -/
theorem messagesRead_payload_counterexample :
    (handleMarkMessagesRead readDemoStore demoSock 10 [1] 5).1.messages
      = readDemoStore.messages ∧
    (handleMarkMessagesRead readDemoStore demoSock 10 [1] 5).2 =
      [{ target := Target.room (conversationRoom 10), event := "messages_read",
         payload := Payload.readPayload [1] demoSock.userId 5 }] ∧
    ¬ ([1] : List Nat) = ([] : List Nat) := by decide

/-- C5 amended: the messages_read event broadcast to the conversation group
carries the caller-supplied id set verbatim — unfiltered, including ids of
messages that did not transition — together with the reader's id and the
read timestamp. -/
theorem messagesRead_broadcast_payload (s : Store) (sock : Sock) (convId : Nat)
    (ids : List Nat) (now : Nat) :
    (handleMarkMessagesRead s sock convId ids now).2 =
      [{ target := Target.room (conversationRoom convId), event := "messages_read",
         payload := Payload.readPayload ids sock.userId now }] := rfl

/-- C4 counterexample: user 1 is not a participant of conversation 20, yet
mark_messages_read does not fail with NotAParticipant: the handler runs to
completion, durably transitions message 2 (a write occurs), broadcasts a
normal messages_read to the conversation group, emits no error event, and
leaves the connection open. -/
theorem markRead_noCheck_counterexample :
    (∀ c ∈ readDemoStore.conversations, c.id = 20 →
      ∀ p ∈ c.participants, ¬ p.user = demoSock.userId) ∧
    ¬ ((handleMarkMessagesRead readDemoStore demoSock 20 [2] 5).1.messages
        = readDemoStore.messages) ∧
    (handleMarkMessagesRead readDemoStore demoSock 20 [2] 5).2 =
      [{ target := Target.room (conversationRoom 20), event := "messages_read",
         payload := Payload.readPayload [2] demoSock.userId 5 }] ∧
    (onMarkMessagesRead readDemoStore demoSock 20 [2] 5).2.2 = true := by decide

/-- C4 amended: the gateway performs no participant verification on
mark_messages_read and raises no NotAParticipant error. When the reader is
not a participant of the named conversation, the conversation collection is
left unchanged only because the updateOne filter matches nothing; the
message updates and the messages_read broadcast still happen, no error
event is emitted (the handler's catch only logs), and the connection stays
open. -/
theorem markRead_noParticipantVerification (s : Store) (sock : Sock)
    (convId : Nat) (ids : List Nat) (now : Nat)
    (h : ∀ c ∈ s.conversations, c.id = convId →
      ∀ p ∈ c.participants, ¬ p.user = sock.userId) :
    (handleMarkMessagesRead s sock convId ids now).1.conversations =
      s.conversations ∧
    (handleMarkMessagesRead s sock convId ids now).2 =
      [{ target := Target.room (conversationRoom convId), event := "messages_read",
         payload := Payload.readPayload ids sock.userId now }] ∧
    (onMarkMessagesRead s sock convId ids now).2.2 = true := by
  refine ⟨?_, rfl, rfl⟩
  exact resetUnreadConvs_eq_self s.conversations convId sock.userId h

/-- Witness for the amended C4: user 1 marks message 3 read against
conversation 20, of which they are not a participant. -/
theorem markRead_noParticipantVerification_witness :
    (∀ c ∈ readDemoStore.conversations, c.id = 20 →
      ∀ p ∈ c.participants, ¬ p.user = demoSock.userId) ∧
    ((handleMarkMessagesRead readDemoStore demoSock 20 [3] 5).1.conversations =
      readDemoStore.conversations ∧
    (handleMarkMessagesRead readDemoStore demoSock 20 [3] 5).2 =
      [{ target := Target.room (conversationRoom 20), event := "messages_read",
         payload := Payload.readPayload [3] demoSock.userId 5 }] ∧
    (onMarkMessagesRead readDemoStore demoSock 20 [3] 5).2.2 = true) :=
  ⟨by decide,
    markRead_noParticipantVerification readDemoStore demoSock 20 [3] 5 (by decide)⟩

/-- Filtering out one key leaves the presence of any other key alone. -/
theorem any_key_filter {β : Type} (m : List (Nat × β)) (k j : Nat) (h : ¬ j = k) :
    ((m.filter fun kv => !(kv.1 == k)).any fun kv => kv.1 == j) =
      (m.any fun kv => kv.1 == j) := by
  induction m with
  | nil => rfl
  | cons kv rest ih =>
    by_cases hk : kv.1 = k
    · have hb : (kv.1 == k) = true := by simp [hk]
      have hj : (kv.1 == j) = false := by
        simp only [beq_eq_false_iff_ne, ne_eq]
        rw [hk]
        intro he
        exact h he.symm
      simp only [List.filter_cons, hb, Bool.not_true, Bool.false_eq_true,
        if_false, List.any_cons, hj, Bool.false_or]
      exact ih
    · have hb : (kv.1 == k) = false := by simp [hk]
      simp only [List.filter_cons, hb, Bool.not_false, if_true, List.any_cons]
      rw [ih]

/-- `Map.has` after `Map.delete` of the same key is false. -/
theorem mhas_mdel_self {β : Type} (m : List (Nat × β)) (k : Nat) :
    mhas (mdel m k) k = false := by
  induction m with
  | nil => rfl
  | cons kv rest ih =>
    unfold mdel mhas at *
    by_cases hk : kv.1 = k
    · have hb : (kv.1 == k) = true := by simp [hk]
      simp only [List.filter_cons, hb, Bool.not_true, Bool.false_eq_true, if_false]
      exact ih
    · have hb : (kv.1 == k) = false := by simp [hk]
      simp only [List.filter_cons, hb, Bool.not_false, if_true, List.any_cons]
      rw [Bool.false_or]
      exact ih

/-- `Map.has` for another key is unaffected by `Map.delete`. -/
theorem mhas_mdel_other {β : Type} (m : List (Nat × β)) (k j : Nat) (h : ¬ j = k) :
    mhas (mdel m k) j = mhas m j :=
  any_key_filter m k j h

/-- `Map.has` after `Map.set` of the same key is true. -/
theorem mhas_mset_self {β : Type} (m : List (Nat × β)) (k : Nat) (v : β) :
    mhas (mset m k v) k = true := by
  unfold mset mhas
  simp

/-- `Map.has` for another key is unaffected by `Map.set`. -/
theorem mhas_mset_other {β : Type} (m : List (Nat × β)) (k j : Nat) (v : β)
    (h : ¬ j = k) :
    mhas (mset m k v) j = mhas m j := by
  unfold mset mhas
  simp only [List.any_cons]
  have hb : (k == j) = false := by
    simp only [beq_eq_false_iff_ne, ne_eq]
    intro he
    exact h he.symm
  rw [hb, Bool.false_or]
  exact any_key_filter m k j h

/-- C7: a connection presenting a missing or invalid credential is refused
by the auth middleware before the connection handler ever runs: no
presence entry is created in either direction, no room is joined, nothing
is emitted, and none of the inbound events the client attempts (join,
send, typing, mark-read) is processed — gateway and store come out exactly
as they went in. -/
theorem unauthorizedConnect_refused (g : Gateway) (s : Store)
    (token : Option TokenData) (sockId : Nat) (events : List InEvent)
    (now k : Nat) (h : authUser s token = none) :
    runConnection g s token sockId events now k = (g, s, []) := by
  unfold runConnection
  rw [h]

/-- Witness for C7: an invalid token against the demo store, with a join,
a send, a mark-read and a disconnect all attempted. -/
theorem unauthorizedConnect_refused_witness :
    (authUser demoStore (some demoBadToken) = none) ∧
    runConnection emptyGateway demoStore (some demoBadToken) 100
      [InEvent.joinConversation 10, InEvent.sendMessage demoSend,
       InEvent.markRead 10 [2], InEvent.disconnect] 5 0 =
      (emptyGateway, demoStore, []) :=
  ⟨by decide,
    unauthorizedConnect_refused emptyGateway demoStore (some demoBadToken) 100
      [InEvent.joinConversation 10, InEvent.sendMessage demoSend,
       InEvent.markRead 10 [2], InEvent.disconnect] 5 0 (by decide)⟩

/-- C8: the user_typing / user_stopped_typing broadcasts produced by
typing_start and typing_stop are targeted at the conversation room minus
the originator, so they are never delivered back to the originating
connection, whatever the room membership state. -/
theorem typing_no_self_notification (g : Gateway) (sock : Sock) (cid : Nat) :
    (∀ e ∈ onTypingStart sock cid, deliversTo g e.target sock.sockId = false) ∧
    (∀ e ∈ onTypingStop sock cid, deliversTo g e.target sock.sockId = false) := by
  constructor
  all_goals
    intro e he
    simp only [onTypingStart, onTypingStop, List.mem_singleton] at he
    subst he
    simp [deliversTo]

/-- Witness for C8: the concrete user_typing emission of the demo socket is
not delivered to the demo socket. -/
theorem typing_no_self_notification_witness :
    demoTypingEmission ∈ onTypingStart demoSock 10 ∧
    deliversTo emptyGateway demoTypingEmission.target demoSock.sockId = false :=
  ⟨by decide,
    (typing_no_self_notification emptyGateway demoSock 10).1 demoTypingEmission
      (by decide)⟩

/-- C10: after a participant registers a second connection (overwriting
the participantId → connectionId entry), the disconnect of either of the
two connections deletes that entry unconditionally: isUserOnline turns
false and an offline user_status_change is broadcast even though the other
connection is still present in the connectionId → participant map — the
bidirectional presence mapping is left inconsistent. -/
theorem presence_disconnect_inconsistency (g : Gateway) (u sid1 sid2 : Nat)
    (role1 role2 : String) (t1 t2 t3 : Nat) (hne : ¬ sid1 = sid2) :
    (isUserOnline (onDisconnect (doubleConnect g u sid1 sid2 role1 role2 t1 t2)
        ⟨sid1, u, role1⟩ t3).1 u = false ∧
      (onDisconnect (doubleConnect g u sid1 sid2 role1 role2 t1 t2)
        ⟨sid1, u, role1⟩ t3).2 = [broadcastUserStatus u "offline" t3] ∧
      mhas (onDisconnect (doubleConnect g u sid1 sid2 role1 role2 t1 t2)
        ⟨sid1, u, role1⟩ t3).1.userSockets sid2 = true) ∧
    (isUserOnline (onDisconnect (doubleConnect g u sid1 sid2 role1 role2 t1 t2)
        ⟨sid2, u, role2⟩ t3).1 u = false ∧
      (onDisconnect (doubleConnect g u sid1 sid2 role1 role2 t1 t2)
        ⟨sid2, u, role2⟩ t3).2 = [broadcastUserStatus u "offline" t3] ∧
      mhas (onDisconnect (doubleConnect g u sid1 sid2 role1 role2 t1 t2)
        ⟨sid2, u, role2⟩ t3).1.userSockets sid1 = true) := by
  have hne2 : ¬ sid2 = sid1 := fun he => hne he.symm
  refine ⟨⟨?_, rfl, ?_⟩, ⟨?_, rfl, ?_⟩⟩
  · exact mhas_mdel_self _ u
  · rw [show (onDisconnect (doubleConnect g u sid1 sid2 role1 role2 t1 t2)
        ⟨sid1, u, role1⟩ t3).1.userSockets =
        mdel (mset (mset g.userSockets sid1 ⟨u, role1⟩) sid2 ⟨u, role2⟩) sid1
      from rfl]
    rw [mhas_mdel_other _ sid1 sid2 hne2]
    exact mhas_mset_self _ sid2 _
  · exact mhas_mdel_self _ u
  · rw [show (onDisconnect (doubleConnect g u sid1 sid2 role1 role2 t1 t2)
        ⟨sid2, u, role2⟩ t3).1.userSockets =
        mdel (mset (mset g.userSockets sid1 ⟨u, role1⟩) sid2 ⟨u, role2⟩) sid2
      from rfl]
    rw [mhas_mdel_other _ sid2 sid1 hne]
    rw [mhas_mset_other _ sid2 sid1 _ hne]
    exact mhas_mset_self _ sid1 _

/-- Witness for C10: user 1 connects on transports 100 and 101, then
transport 100 disconnects. -/
theorem presence_disconnect_inconsistency_witness :
    (¬ (100 : Nat) = 101) ∧
    ((isUserOnline (onDisconnect (doubleConnect emptyGateway 1 100 101 "user" "user" 1 2)
        ⟨100, 1, "user"⟩ 3).1 1 = false ∧
      (onDisconnect (doubleConnect emptyGateway 1 100 101 "user" "user" 1 2)
        ⟨100, 1, "user"⟩ 3).2 = [broadcastUserStatus 1 "offline" 3] ∧
      mhas (onDisconnect (doubleConnect emptyGateway 1 100 101 "user" "user" 1 2)
        ⟨100, 1, "user"⟩ 3).1.userSockets 101 = true) ∧
    (isUserOnline (onDisconnect (doubleConnect emptyGateway 1 100 101 "user" "user" 1 2)
        ⟨101, 1, "user"⟩ 3).1 1 = false ∧
      (onDisconnect (doubleConnect emptyGateway 1 100 101 "user" "user" 1 2)
        ⟨101, 1, "user"⟩ 3).2 = [broadcastUserStatus 1 "offline" 3] ∧
      mhas (onDisconnect (doubleConnect emptyGateway 1 100 101 "user" "user" 1 2)
        ⟨101, 1, "user"⟩ 3).1.userSockets 100 = true)) :=
  ⟨by decide,
    presence_disconnect_inconsistency emptyGateway 1 100 101 "user" "user" 1 2 3
      (by decide)⟩

/-- `findOne` returns the unique satisfying document when only one
satisfies the predicate. -/
theorem find?_eq_some_of_unique {α : Type} (l : List α) (p : α → Bool) (c : α)
    (hc : c ∈ l) (hpc : p c = true)
    (huniq : ∀ d ∈ l, p d = true → d = c) :
    l.find? p = some c := by
  induction l with
  | nil => cases hc
  | cons a rest ih =>
    by_cases hpa : p a = true
    · rw [List.find?_cons_of_pos _ hpa]
      rw [huniq a (List.mem_cons_self a rest) hpa]
    · rw [List.find?_cons_of_neg _ hpa]
      have hc2 : c ∈ rest := by
        cases List.mem_cons.mp hc with
        | inl h =>
          exfalso
          rw [h] at hpc
          exact hpa hpc
        | inr h => exact h
      exact ih hc2 fun d hd hpd => huniq d (List.mem_cons_of_mem a hd) hpd

/-- Normal form of getMessages when the membership lookup succeeds. -/
theorem getMessages_found (s : Store) (uid : Nat) (userModel : String)
    (convId page limit now : Nat) (c : Conversation)
    (hfind : s.conversations.find? (fun d => d.id == convId &&
        (d.participants.any fun p => p.user == uid) &&
        (d.participants.any fun p => p.userModel == userModel)) = some c) :
    getMessages s uid userModel convId page limit now = Except.ok
      ({ s with
         messages := s.messages.map fun m =>
           if m.receiver == uid &&
               (c.participants.map fun p => p.user).contains m.sender &&
               m.isRead == false
           then { m with isRead := true, readAt := some now } else m,
         conversations := resetUnreadConvs s.conversations convId uid },
       (((sortByCreatedDesc (s.messages.filter fun m =>
           ((m.sender == uid &&
               (c.participants.map fun p => p.user).contains m.receiver) ||
            (m.receiver == uid &&
               (c.participants.map fun p => p.user).contains m.sender)) &&
           m.isDeleted == false)).drop ((page - 1) * limit)).take
         (limit * page)).reverse) := by
  unfold getMessages
  rw [hfind]

/-- C9: for every participant fetching the message history of a
conversation they belong to (ids unique, participant ids distinct), the
fetch — independent of the requested page — transitions exactly the unread
messages addressed to the requester whose sender is one of the
conversation's participants to isRead = true with readAt set, leaves every
other message untouched, and resets the requester's unreadCount on that
conversation to 0 while every other conversation is unchanged; the
resulting store is the same whatever page and limit are requested. -/
theorem getMessages_marksRead (s : Store) (uid : Nat) (userModel : String)
    (convId page limit now : Nat) (c : Conversation)
    (hids : (s.conversations.map Conversation.id).Nodup)
    (hc : c ∈ s.conversations) (hcid : c.id = convId)
    (husers : (c.participants.map Participant.user).Nodup)
    (hpart : ∃ p ∈ c.participants, p.user = uid)
    (hmodel : ∃ p ∈ c.participants, p.userModel = userModel) :
    ∃ s2 pageMsgs,
      getMessages s uid userModel convId page limit now = Except.ok (s2, pageMsgs) ∧
      s2.messages.length = s.messages.length ∧
      (∀ (i : Nat) (m m2 : Message), s.messages[i]? = some m →
          s2.messages[i]? = some m2 →
        ((m.receiver = uid ∧ m.sender ∈ (c.participants.map fun p => p.user) ∧
            m.isRead = false) →
          m2 = { m with isRead := true, readAt := some now }) ∧
        (¬(m.receiver = uid ∧ m.sender ∈ (c.participants.map fun p => p.user) ∧
            m.isRead = false) → m2 = m)) ∧
      ({ c with participants := c.participants.map (fun p =>
          if p.user == uid then { p with unreadCount := 0 } else p) }
        ∈ s2.conversations) ∧
      (∀ d ∈ s.conversations, ¬ d.id = convId → d ∈ s2.conversations) ∧
      (∀ page2 limit2 : Nat, ∃ pm2,
        getMessages s uid userModel convId page2 limit2 now =
          Except.ok (s2, pm2)) := by
  have hpc : (c.id == convId &&
      (c.participants.any fun p => p.user == uid) &&
      (c.participants.any fun p => p.userModel == userModel)) = true := by
    obtain ⟨p1, hp1, hp1u⟩ := hpart
    obtain ⟨p2, hp2, hp2m⟩ := hmodel
    simp only [Bool.and_eq_true, beq_iff_eq, List.any_eq_true]
    exact ⟨⟨hcid, p1, hp1, by simp [hp1u]⟩, p2, hp2, by simp [hp2m]⟩
  have huniq : ∀ d ∈ s.conversations, (d.id == convId &&
      (d.participants.any fun p => p.user == uid) &&
      (d.participants.any fun p => p.userModel == userModel)) = true → d = c := by
    intro d hd hpd
    have hdid : d.id = convId := by
      have h1 := (Bool.and_eq_true _ _).mp hpd
      have h2 := (Bool.and_eq_true _ _).mp h1.1
      exact beq_iff_eq.mp h2.1
    exact List.inj_on_of_nodup_map hids hd hc (by rw [hdid, hcid])
  have hfind : s.conversations.find? (fun d => d.id == convId &&
      (d.participants.any fun p => p.user == uid) &&
      (d.participants.any fun p => p.userModel == userModel)) = some c :=
    find?_eq_some_of_unique _ _ c hc hpc huniq
  refine ⟨_, _, getMessages_found s uid userModel convId page limit now c hfind,
    ?_, ?_, ?_, ?_, ?_⟩
  · exact List.length_map _ _
  · intro i m m2 hm hm2
    have hmap : (s.messages.map fun m =>
        if m.receiver == uid &&
            (c.participants.map fun p => p.user).contains m.sender &&
            m.isRead == false
        then { m with isRead := true, readAt := some now } else m)[i]? =
        Option.map (fun m =>
          if m.receiver == uid &&
              (c.participants.map fun p => p.user).contains m.sender &&
              m.isRead == false
          then { m with isRead := true, readAt := some now } else m)
          s.messages[i]? :=
      List.getElem?_map _ _ _
    rw [hm] at hmap
    have hm2f : m2 = (if m.receiver == uid &&
        (c.participants.map fun p => p.user).contains m.sender &&
        m.isRead == false
        then { m with isRead := true, readAt := some now } else m) := by
      have := hm2.symm.trans hmap
      exact (Option.some.injEq _ _).mp this
    constructor
    · intro hcond
      have hguard : (m.receiver == uid &&
          (c.participants.map fun p => p.user).contains m.sender &&
          m.isRead == false) = true := by
        simp only [Bool.and_eq_true, beq_iff_eq]
        refine ⟨⟨hcond.1, ?_⟩, hcond.2.2⟩
        exact List.elem_eq_true_of_mem hcond.2.1
      rw [hm2f, hguard]
      rfl
    · intro hcond
      have hguard : (m.receiver == uid &&
          (c.participants.map fun p => p.user).contains m.sender &&
          m.isRead == false) = false := by
        rw [Bool.eq_false_iff]
        intro habs
        apply hcond
        have h2 := (Bool.and_eq_true _ _).mp habs
        have h3 := (Bool.and_eq_true _ _).mp h2.1
        refine ⟨beq_iff_eq.mp h3.1, ?_, beq_iff_eq.mp h2.2⟩
        have := List.contains_iff_exists_mem_beq.mp h3.2
        obtain ⟨a, ha, hbeq⟩ := this
        rw [beq_iff_eq.mp hbeq]
        exact ha
      rw [hm2f, hguard]
      simp
  · have hpartb : (c.participants.any fun p => p.user == uid) = true := by
      rw [List.any_eq_true]
      obtain ⟨p, hp, hpu⟩ := hpart
      exact ⟨p, hp, by simp [hpu]⟩
    have hres := mem_resetUnreadConvs_self s.conversations convId uid c
      hids hc hcid hpartb
    rw [resetFirstUnread_eq_map uid c.participants husers] at hres
    exact hres
  · intro d hd hdne
    exact mem_resetUnreadConvs_of_ne s.conversations convId uid d hd hdne
  · intro page2 limit2
    exact ⟨_, getMessages_found s uid userModel convId page2 limit2 now c hfind⟩

/-- Witness for C9: user 1 fetches page 1 of conversation 10 in the demo
read store; messages 2 and 3 transition, message 1 is untouched, user 1's
unreadCount resets to 0, and any other page yields the same store. -/
theorem getMessages_marksRead_witness :
    ((readDemoStore.conversations.map Conversation.id).Nodup) ∧
    ((readDemoStore.conversations.get ⟨0, by decide⟩) ∈ readDemoStore.conversations) ∧
    ((readDemoStore.conversations.get ⟨0, by decide⟩).id = 10) ∧
    (((readDemoStore.conversations.get ⟨0, by decide⟩).participants.map
        Participant.user).Nodup) ∧
    (∃ p ∈ (readDemoStore.conversations.get ⟨0, by decide⟩).participants,
      p.user = 1) ∧
    (∃ p ∈ (readDemoStore.conversations.get ⟨0, by decide⟩).participants,
      p.userModel = "User") ∧
    (∃ s2 pageMsgs,
      getMessages readDemoStore 1 "User" 10 1 50 5 = Except.ok (s2, pageMsgs) ∧
      s2.messages.length = readDemoStore.messages.length ∧
      (∀ (i : Nat) (m m2 : Message), readDemoStore.messages[i]? = some m →
          s2.messages[i]? = some m2 →
        ((m.receiver = 1 ∧
            m.sender ∈ ((readDemoStore.conversations.get ⟨0, by decide⟩).participants.map
              fun p => p.user) ∧
            m.isRead = false) →
          m2 = { m with isRead := true, readAt := some 5 }) ∧
        (¬(m.receiver = 1 ∧
            m.sender ∈ ((readDemoStore.conversations.get ⟨0, by decide⟩).participants.map
              fun p => p.user) ∧
            m.isRead = false) → m2 = m)) ∧
      ({ readDemoStore.conversations.get ⟨0, by decide⟩ with
          participants := (readDemoStore.conversations.get
            ⟨0, by decide⟩).participants.map (fun p =>
              if p.user == 1 then { p with unreadCount := 0 } else p) }
        ∈ s2.conversations) ∧
      (∀ d ∈ readDemoStore.conversations, ¬ d.id = 10 → d ∈ s2.conversations) ∧
      (∀ page2 limit2 : Nat, ∃ pm2,
        getMessages readDemoStore 1 "User" 10 page2 limit2 5 =
          Except.ok (s2, pm2))) :=
  ⟨by decide, by decide, by decide, by decide, by decide, by decide,
    getMessages_marksRead readDemoStore 1 "User" 10 1 50 5
      (readDemoStore.conversations.get ⟨0, by decide⟩)
      (by decide) (by decide) (by decide) (by decide) (by decide) (by decide)⟩

end TunFans
